import Mathlib

/-!
Shallow embedding of the fault-matching and scoring engine of the
llm-code-quality-experiment repository.

The repository contains several re-implementations of the same engine:

* `src/generate_evaluation.py` (called "v1" below): `lines_overlap`,
  `strict_match`, `match_errors_both`, `calculate_metrics`;
* `src/generate_evaluation_v2.py` ("v2"): `lines_overlap`, `calculate_iou`,
  `strict_match`, `evaluate_fault_detection`, `match_errors_localization`;
* `src/generate_evaluation_v3.py` ("v3"): same helpers as v2 plus
  `adaptive_iou_threshold` and `match_errors_adaptive_smooth_iou`,
  and a deduplicating `evaluate_fault_detection`;
* `src/docs/experiment/scripts/run_evaluation.py`: a simpler `lines_overlap`.

Python `int` is modelled as `Int`, Python `float` arithmetic on exact
fractions as `ℚ` where the source only divides integers, and as `ℝ` where the
source calls `math.log10`.  Python lists are Lean lists; appending to an
accumulator list inside a loop is modelled either as `· ++ [x]` or by the
equivalent cons-style structural recursion (which produces the same list).
Python dictionaries keyed by file name or threshold are modelled as total
functions read only at the relevant keys; iteration over a Python `set`
(whose order the Python implementation leaves unspecified) is modelled as
iteration over a deduplicated list.  Suffixes `V1`/`V2`/`V3` distinguish
the divergent re-implementations of a same-named Python function.
-/

/-- Record type of `GroundTruthError` (identical in v1, v2 and v3). -/
structure GroundTruthError where
  id : String
  filename : String
  start_line : Int
  end_line : Int
  iso_category : String
  error_description : String
  severity : String
  context_hash : String
deriving DecidableEq, Repr

/-- Record type of `DetectedError` in v1 (no id field). -/
structure DetectedError where
  filename : String
  start_line : Int
  end_line : Int
  severity : String
  error_description : String
deriving DecidableEq, Repr

/-- Record type of `DetectedError` in v2 and v3: carries the claimed
ground-truth id, with the sentinel value "FP" meaning "no id". -/
structure DetectedErrorId where
  filename : String
  start_line : Int
  end_line : Int
  severity : String
  error_description : String
  detected_id : String
deriving DecidableEq, Repr

/-- `lines_overlap` of v1 (`generate_evaluation.py` lines 128-130); v2 and v3
contain the same formula.  Note that the tolerance is added on both sides of
the comparison, so both intervals are effectively expanded by `tolerance`. -/
def lines_overlap (gt_start gt_end det_start det_end tolerance : Int) : Bool :=
  !(decide (gt_end + tolerance < det_start - tolerance) ||
    decide (det_end + tolerance < gt_start - tolerance))

/-- `lines_overlap` of `run_evaluation.py` lines 126-127.  The source reads
the module constant `LINE_TOLERANCE`; it is passed here as a parameter. -/
def lines_overlapRE (a_s a_e b_s b_e tolerance : Int) : Bool :=
  decide (a_s ≤ b_e + tolerance) && decide (a_e ≥ b_s - tolerance)

/-- `calculate_iou` of v2/v3: 1-D intersection-over-union on inclusive
integer line ranges, exact rational value of the Python float quotient. -/
def calculate_iou (gt_start gt_end det_start det_end : Int) : ℚ :=
  let o_start := max gt_start det_start
  let o_end := min gt_end det_end
  if o_start > o_end then 0
  else
    let overlap := o_end - o_start + 1
    let union := max gt_end det_end - min gt_start det_start + 1
    if union > 0 then (overlap : ℚ) / (union : ℚ) else 0

/-- `strict_match` of v1 (`generate_evaluation.py` lines 134-177).  The two
default arguments `tol=3` and `iou_threshold=0.30` are explicit parameters;
`match_errors_both` calls it with `tol = tolerance` and the default
threshold 0.30. -/
def strict_matchV1 (gt : GroundTruthError) (det : DetectedError)
    (tol : Int) (iou_threshold : ℚ) : Bool :=
  if gt.filename ≠ det.filename then false
  else
    let gt_size := gt.end_line - gt.start_line + 1
    let tol := if gt_size = 1 then max tol 2 else tol
    let iou_threshold := if gt_size = 1 then max iou_threshold 0.15 else iou_threshold
    let gs := max 1 (gt.start_line - tol)
    let ge := gt.end_line + tol
    let ds := det.start_line
    let de := det.end_line
    if de < gs ∨ ds > ge then false
    else
      let overlap := min ge de - max gs ds + 1
      let union := max ge de - min gs ds + 1
      let iou : ℚ := if union > 0 then (overlap : ℚ) / (union : ℚ) else 0
      if iou < iou_threshold then false
      else
        let det_size := de - ds + 1
        if det_size ≤ 0 then false
        else if det_size > 40 ∨ det_size > max 8 (gt_size * 6) then false
        else true

/-- `strict_match` of v2 (lines 136-154) and v3 (lines 130-148), which are
identical.  The early-return structure is rendered as a conjunction; the
`math.log10` of the Python source forces the multi-line branch into `ℝ`. -/
def strict_matchV3 (gt : GroundTruthError) (det : DetectedErrorId) (tol : Int) : Prop :=
  gt.filename = det.filename ∧
  lines_overlap gt.start_line gt.end_line det.start_line det.end_line tol = true ∧
  (let gts := gt.end_line - gt.start_line + 1
   let ds := det.end_line - det.start_line + 1
   let iou := calculate_iou gt.start_line gt.end_line det.start_line det.end_line
   if gts = 1 then ds ≤ 7 ∧ iou ≥ 0.15
   else
     let min_iou : ℝ := max 0.2 (0.6 - 0.35 * Real.logb 10 (gts : ℝ))
     let max_det := min (gts * 5 + 15) (gts * 3 + 60)
     let center_dev : ℚ := |(gt.start_line + gt.end_line : ℚ) / 2 -
                            (det.start_line + det.end_line : ℚ) / 2|
     let max_shift : ℚ := (gts : ℚ) * 1.5 + 5
     (iou : ℝ) ≥ min_iou ∧ ds ≤ max_det ∧ center_dev ≤ max_shift ∧ ds ≥ 1)

/-- `adaptive_iou_threshold` of v3 (lines 300-304): smooth adaptive minimum
IoU as a function of the ground-truth size in lines. -/
noncomputable def adaptive_iou_threshold (gt_lines : Int) : ℝ :=
  if gt_lines ≤ 1 then 0.85
  else max 0.30 (1.00 - 0.28 * Real.logb 10 (gt_lines : ℝ))

/-- Result record of `calculate_metrics` (the same dict shape in v1, v2, v3,
and `compute_metrics` of `evaluate_tp_fp_fn_best_match.py`). -/
structure MetricsResult where
  tp : Nat
  fp : Nat
  fn : Nat
  precision : ℚ
  «recall» : ℚ
  f1 : ℚ
deriving DecidableEq, Repr

/-- `calculate_metrics` of v1 lines 285-289 (identical in v2 lines 281-285
and v3 lines 460-464).  Python's conditional expressions guard every
division, so the Lean function is total: no division-by-zero error can be
raised. -/
def calculate_metrics (tp fp fn : Nat) : MetricsResult :=
  let precision : ℚ := if 0 < tp + fp then (tp : ℚ) / ((tp : ℚ) + (fp : ℚ)) else 0
  let recl : ℚ := if 0 < tp + fn then (tp : ℚ) / ((tp : ℚ) + (fn : ℚ)) else 0
  let f1 : ℚ := if 0 < precision + recl then 2 * precision * recl / (precision + recl) else 0
  ⟨tp, fp, fn, precision, recl, f1⟩

/-- Shape of the dicts appended to `tp_old_all` / `tp_strict_all` in
`match_errors_both` (v1 lines 224-230 and 236-242). -/
structure TPEntry where
  gt_id : String
  filename : String
  gt_lines : Int × Int
  det_lines : Int × Int
  error_description : String
deriving DecidableEq, Repr

/-- Shape of the dicts appended to `fp_old_all` / `fp_strict_all` in
`match_errors_both` (v1 lines 253-257 and 260-264). -/
structure FPEntry where
  filename : String
  det_lines : Int × Int
  error_description : String
deriving DecidableEq, Repr

/-- Shape of the dicts appended to `fn_old_all` / `fn_strict_all` in
`match_errors_both` (v1 lines 268-273 and 275-280). -/
structure FNEntry where
  gt_id : String
  filename : String
  gt_lines : Int × Int
  error_description : String
deriving DecidableEq, Repr

/-- The TP dict built by `match_errors_both` from a matched pair. -/
def mkTPEntry (gt : GroundTruthError) (det : DetectedError) : TPEntry :=
  ⟨gt.id, gt.filename, (gt.start_line, gt.end_line),
   (det.start_line, det.end_line), gt.error_description⟩

/-- The FP dict built by `match_errors_both` from an unmatched detection. -/
def mkFPEntry (det : DetectedError) : FPEntry :=
  ⟨det.filename, (det.start_line, det.end_line), det.error_description⟩

/-- The FN dict built by `match_errors_both` from an unmatched ground truth. -/
def mkFNEntry (gt : GroundTruthError) : FNEntry :=
  ⟨gt.id, gt.filename, (gt.start_line, gt.end_line), gt.error_description⟩

/-- Stable insertion of a detection into a list sorted by `start_line`. -/
def insertByStart (d : DetectedError) : List DetectedError → List DetectedError
  | [] => [d]
  | e :: es =>
    if d.start_line ≤ e.start_line then d :: e :: es else e :: insertByStart d es

/-- Model of `sorted(current_det, key=lambda x: x.start_line)` (v1 line 203):
a stable sort by `start_line`, rendered as insertion sort (Python's sort is
stable, and any stable sort by the same key produces the same list). -/
def sortByStart : List DetectedError → List DetectedError
  | [] => []
  | d :: ds => insertByStart d (sortByStart ds)

/-- The backward greedy scan of v1 lines 216-218: find the last index `i`
of the remaining ground-truth list whose entry passes `lines_overlap`
against `det`, together with that entry. -/
def findLastOverlap (det : DetectedError) (tolerance : Int) :
    List GroundTruthError → Option (Nat × GroundTruthError)
  | [] => none
  | gt :: rest =>
    match findLastOverlap det tolerance rest with
    | some (i, g) => some (i + 1, g)
    | none =>
      if lines_overlap gt.start_line gt.end_line det.start_line det.end_line tolerance
      then some (0, gt) else none

/-- The six accumulator lists of `match_errors_both`, plus the two
`remaining` pools (from which the FN lists are produced at end of file). -/
structure BothState where
  tp_old : List TPEntry
  fp_old : List FPEntry
  tp_strict : List TPEntry
  fp_strict : List FPEntry
  rem_old : List GroundTruthError
  rem_strict : List GroundTruthError
deriving DecidableEq, Repr

/-- The `for det in current_det` loop of `match_errors_both` (v1 lines
209-264), in cons-style recursion (appends to the Python accumulator lists
become conses here, preserving order).  When the backward scan succeeds at
index `i`, the classic pool drops index `i`; the strict pool also drops
index `i` — the index computed for `remaining_old` — exactly as in
`remaining_strict.pop(i)` of line 244. -/
def bothLoop (tolerance : Int) :
    List GroundTruthError → List GroundTruthError → List DetectedError → BothState
  | remO, remS, [] => ⟨[], [], [], [], remO, remS⟩
  | remO, remS, det :: ds =>
    match findLastOverlap det tolerance remO with
    | none =>
      let r := bothLoop tolerance remO remS ds
      ⟨r.tp_old, mkFPEntry det :: r.fp_old, r.tp_strict,
       mkFPEntry det :: r.fp_strict, r.rem_old, r.rem_strict⟩
    | some (i, gt) =>
      let strict_ok := strict_matchV1 gt det tolerance 0.30
      let r := bothLoop tolerance (remO.eraseIdx i)
        (if strict_ok then remS.eraseIdx i else remS) ds
      ⟨mkTPEntry gt det :: r.tp_old, r.fp_old,
       if strict_ok then mkTPEntry gt det :: r.tp_strict else r.tp_strict,
       if strict_ok then r.fp_strict else mkFPEntry det :: r.fp_strict,
       r.rem_old, r.rem_strict⟩

/-- Result of `match_errors_both`: the classic triple and the strict triple. -/
structure BothResult where
  tp_old : List TPEntry
  fp_old : List FPEntry
  fn_old : List FNEntry
  tp_strict : List TPEntry
  fp_strict : List FPEntry
  fn_strict : List FNEntry
deriving DecidableEq, Repr

/-- The body of the `for filename in ...` loop of `match_errors_both` for
one file: run the detection loop on the sorted detections, then turn the
remaining pools into FN entries (v1 lines 200-280). -/
def processFileBoth (tolerance : Int) (gts : List GroundTruthError)
    (dets : List DetectedError) : BothResult :=
  let r := bothLoop tolerance gts gts (sortByStart dets)
  ⟨r.tp_old, r.fp_old, r.rem_old.map mkFNEntry,
   r.tp_strict, r.fp_strict, r.rem_strict.map mkFNEntry⟩

/-- `match_errors_both` of v1 (lines 188-282).  The Python grouping by
`defaultdict` keyed on file name is modelled by filtering on each file name;
the iteration over the (unordered) Python set of file names is modelled as
iteration over the deduplicated name list. -/
def match_errors_both (gt_errors : List GroundTruthError)
    (det_errors : List DetectedError) (tolerance : Int) : BothResult :=
  let files := ((gt_errors.map (·.filename)) ++ (det_errors.map (·.filename))).dedup
  let per := files.map fun f =>
    processFileBoth tolerance (gt_errors.filter (·.filename == f))
      (det_errors.filter (·.filename == f))
  ⟨per.flatMap (·.tp_old), per.flatMap (·.fp_old), per.flatMap (·.fn_old),
   per.flatMap (·.tp_strict), per.flatMap (·.fp_strict), per.flatMap (·.fn_strict)⟩

/-- Optional `note` key of the FP dicts of v3 `evaluate_fault_detection`:
either absent, or the string "duplicate_detection" (v3 line 190). -/
inductive FdNote where
  | noNote
  | duplicateDetection
deriving DecidableEq, Repr

/-- Shape of the dicts appended to `tp_list` in `evaluate_fault_detection`
(v3 lines 177-182; v2 lines 170-175). -/
structure FdTPEntry where
  detected_id : String
  filename : String
  det_lines : Int × Int
  error_description : String
deriving DecidableEq, Repr

/-- Shape of the dicts appended to `fp_list` in `evaluate_fault_detection`
(v3 lines 168-173 and 185-191; v2 lines 178-183, whose dicts never carry a
note). -/
structure FdFPEntry where
  filename : String
  det_lines : Int × Int
  error_description : String
  detected_id : String
  note : FdNote
deriving DecidableEq, Repr

/-- Shape of the dicts appended to `fn_list` in `evaluate_fault_detection`
(v3 lines 196-201; v2 lines 188-193). -/
structure FdFNEntry where
  gt_id : String
  filename : String
  gt_lines : Int × Int
  error_description : String
deriving DecidableEq, Repr

/-- The set `gt_ids = {gt.id for gt in gt_errors}` (v3 line 155, v2 line
162), as the list of ids (membership is all that is ever used). -/
def gtIdList (gts : List GroundTruthError) : List String := gts.map (·.id)

/-- The `detection_count` defaultdict of v3 lines 158-161: how many
detections carry the given (non-"FP") id. -/
def detectionCount (dets : List DetectedErrorId) (x : String) : Nat :=
  (dets.filter (fun d => d.detected_id != "FP" && d.detected_id == x)).length

/-- The TP dict of v3 `evaluate_fault_detection`. -/
def mkFdTP (d : DetectedErrorId) : FdTPEntry :=
  ⟨d.detected_id, d.filename, (d.start_line, d.end_line), d.error_description⟩

/-- The FP dict of the first branch of v3 `evaluate_fault_detection`
(id "FP" or unknown id); the dict stores
`det.detected_id if det.detected_id != "FP" else "FP"`. -/
def mkFdFPUnknown (d : DetectedErrorId) : FdFPEntry :=
  ⟨d.filename, (d.start_line, d.end_line), d.error_description,
   if d.detected_id ≠ "FP" then d.detected_id else "FP", FdNote.noNote⟩

/-- The FP dict of the duplicate branch of v3 `evaluate_fault_detection`
(note "duplicate_detection"). -/
def mkFdFPDup (d : DetectedErrorId) : FdFPEntry :=
  ⟨d.filename, (d.start_line, d.end_line), d.error_description,
   d.detected_id, FdNote.duplicateDetection⟩

/-- The FN dict of v2/v3 `evaluate_fault_detection`. -/
def mkFdFN (gt : GroundTruthError) : FdFNEntry :=
  ⟨gt.id, gt.filename, (gt.start_line, gt.end_line), gt.error_description⟩

/-- The `for det in det_errors` loop of v3 `evaluate_fault_detection`
(lines 166-191), in cons-style recursion.  The state is the
`used_gt_ids` set (modelled as a list queried by membership); the result is
`(tp_list, fp_list, used_gt_ids)`. -/
def fdLoopV3 (gts : List GroundTruthError) (cnt : String → Nat) :
    List String → List DetectedErrorId →
    List FdTPEntry × List FdFPEntry × List String
  | used, [] => ([], [], used)
  | used, d :: ds =>
    if d.detected_id = "FP" ∨ d.detected_id ∉ gtIdList gts then
      let r := fdLoopV3 gts cnt used ds
      (r.1, mkFdFPUnknown d :: r.2.1, r.2.2)
    else if d.detected_id ∉ used ∧ 1 ≤ cnt d.detected_id then
      let r := fdLoopV3 gts cnt (d.detected_id :: used) ds
      (mkFdTP d :: r.1, r.2.1, r.2.2)
    else
      let r := fdLoopV3 gts cnt used ds
      (r.1, mkFdFPDup d :: r.2.1, r.2.2)

/-- `evaluate_fault_detection` of v3 (lines 154-203): purely id-based
matching where only the first detection of each ground-truth id is a true
positive and later detections of the same id are duplicate false
positives. -/
def evaluate_fault_detectionV3 (gt_errors : List GroundTruthError)
    (det_errors : List DetectedErrorId) :
    List FdTPEntry × List FdFPEntry × List FdFNEntry :=
  let r := fdLoopV3 gt_errors (detectionCount det_errors) [] det_errors
  (r.1, r.2.1,
   (gt_errors.filter (fun gt => decide (gt.id ∉ r.2.2))).map mkFdFN)

/-- The FP dict of v2 `evaluate_fault_detection` (lines 178-183, no note
key; rendered with `noNote`). -/
def mkFdFPV2 (d : DetectedErrorId) : FdFPEntry :=
  ⟨d.filename, (d.start_line, d.end_line), d.error_description,
   d.detected_id, FdNote.noNote⟩

/-- The `for det in det_errors` loop of v2 `evaluate_fault_detection`
(lines 168-183): every detection whose id belongs to the ground truth is
appended to `tp_list`, with no deduplication. -/
def fdLoopV2 (gts : List GroundTruthError) :
    List DetectedErrorId → List FdTPEntry × List FdFPEntry
  | [] => ([], [])
  | d :: ds =>
    let r := fdLoopV2 gts ds
    if d.detected_id ∈ gtIdList gts then (mkFdTP d :: r.1, r.2)
    else (r.1, mkFdFPV2 d :: r.2)

/-- `evaluate_fault_detection` of v2 (lines 160-195).  The
`detected_correct_ids` set is exactly the set of ids of the TP entries. -/
def evaluate_fault_detectionV2 (gt_errors : List GroundTruthError)
    (det_errors : List DetectedErrorId) :
    List FdTPEntry × List FdFPEntry × List FdFNEntry :=
  let r := fdLoopV2 gt_errors det_errors
  (r.1, r.2,
   (gt_errors.filter (fun gt => decide (gt.id ∉ r.1.map (·.detected_id)))).map mkFdFN)

/-- Optional `note` key of the entry dicts of v2 `match_errors_localization`
(the string "bad_localization", lines 246-249). -/
inductive LocNote where
  | noNote
  | badLocalization
deriving DecidableEq, Repr

/-- Shape of the entry dict of v2 `match_errors_localization` (lines
231-238), with its optional note. -/
structure LocEntry where
  gt_id : String
  filename : String
  gt_lines : Int × Int
  det_lines : Int × Int
  error_description : String
  detected_id : String
  note : LocNote
deriving DecidableEq, Repr

/-- Items of the FP lists of v2 `match_errors_localization`: either an
entry dict annotated with a note (lines 246-249), or the plain FP dict for
detections whose id is the sentinel "FP" (lines 252-261). -/
inductive LocFpItem where
  | fromEntry (e : LocEntry)
  | plainFP (filename : String) (det_lines : Int × Int) (error_description : String)
deriving DecidableEq, Repr

/-- The entry dict (without note) built by v2 `match_errors_localization`
for a ground truth / detection pair. -/
def mkLocEntry (gt : GroundTruthError) (det : DetectedErrorId) : LocEntry :=
  ⟨gt.id, gt.filename, (gt.start_line, gt.end_line),
   (det.start_line, det.end_line), gt.error_description, det.detected_id,
   LocNote.noNote⟩

open Classical in
/-- Contribution of one valid detection to the four lists
`(tp_classic, fp_classic, tp_strict, fp_strict)` in the main loop of v2
`match_errors_localization` (lines 217-249).  Finding the first
ground-truth entry with the detection's file and id models the linear scan
over `gt_by_file[det.filename]`; a detection with no such entry is skipped
(`continue`, line 225). -/
noncomputable def locStepV2 (gts : List GroundTruthError) (tolerance : Int)
    (det : DetectedErrorId) :
    List LocEntry × List LocFpItem × List LocEntry × List LocFpItem :=
  match gts.find? (fun g => g.filename == det.filename && g.id == det.detected_id) with
  | none => ([], [], [], [])
  | some gt =>
    let entry := mkLocEntry gt det
    let bad := LocFpItem.fromEntry { entry with note := LocNote.badLocalization }
    if lines_overlap gt.start_line gt.end_line det.start_line det.end_line tolerance then
      if strict_matchV3 gt det tolerance
      then ([entry], [], [entry], [])
      else ([entry], [], [], [bad])
    else ([], [bad], [], [bad])

/-- `match_errors_localization` of v2 (lines 201-275); only detections with
a non-"FP" id participate, detections with id "FP" are appended afterwards
to both FP lists, and both FN lists are derived from the set of
classic-matched ground-truth ids. -/
noncomputable def match_errors_localizationV2 (gt_errors : List GroundTruthError)
    (det_errors : List DetectedErrorId) (tolerance : Int) :
    (List LocEntry × List LocFpItem × List FdFNEntry) ×
    (List LocEntry × List LocFpItem × List FdFNEntry) :=
  let valid := det_errors.filter (·.detected_id != "FP")
  let tpC := valid.flatMap fun d => (locStepV2 gt_errors tolerance d).1
  let fpCmain := valid.flatMap fun d => (locStepV2 gt_errors tolerance d).2.1
  let tpS := valid.flatMap fun d => (locStepV2 gt_errors tolerance d).2.2.1
  let fpSmain := valid.flatMap fun d => (locStepV2 gt_errors tolerance d).2.2.2
  let plain := (det_errors.filter (·.detected_id == "FP")).map fun d =>
    LocFpItem.plainFP d.filename (d.start_line, d.end_line) d.error_description
  let fns := (gt_errors.filter
    (fun gt => decide (gt.id ∉ tpC.map (·.gt_id)))).map mkFdFN
  ((tpC, fpCmain ++ plain, fns), (tpS, fpSmain ++ plain, fns))

/-- Shape of the match-entry dict of v3 `match_errors_adaptive_smooth_iou`
(lines 372-382).  The source stores `round(iou, 4)` and
`round(required_iou, 3)` for display; the exact values are kept here. -/
structure IouEntry where
  filename : String
  gt_id : String
  gt_lines : Int × Int
  det_lines : Int × Int
  iou : ℚ
  required_iou : ℝ
  adaptive_tp : Bool
  gt_size : Int
  error_description : String

/-- Items of the FP lists of v3 `match_errors_adaptive_smooth_iou`: an
entry dict with a below-threshold note (lines 388 and 395), an unmatched
candidate (lines 400-413, `wrong_id` true when the claimed id is not in the
file's ground-truth lookup), or a detection marked "FP" (lines 416-425). -/
inductive IouFpItem where
  | belowAdaptive (e : IouEntry)
  | belowFixed (e : IouEntry) (th : ℚ)
  | unmatchedCand (filename : String) (detected_id : String)
      (det_lines : Int × Int) (wrong_id : Bool)
  | markedFP (filename : String) (det_lines : Int × Int)

/-- Shape of the FN dict of v3 `match_errors_adaptive_smooth_iou`
(lines 431-437). -/
structure IouFNEntry where
  filename : String
  gt_id : String
  gt_lines : Int × Int
  required_iou : ℝ
  error_description : String

/-- One `(tp, fp, fn)` triple of lists of v3
`match_errors_adaptive_smooth_iou`. -/
structure IouTri where
  tp : List IouEntry
  fp : List IouFpItem
  fn : List IouFNEntry

/-- State threaded through v3 `match_errors_adaptive_smooth_iou`:
`globally_matched_gt` (line 333), the per-file `used_dets` (line 362,
detections are identified by their index in the input list, modelling
Python's `id(det)` object identity), the `fixed_results` dict (line 321,
modelled as a total function on thresholds), and the adaptive triple. -/
structure AdaptState where
  matched : List (String × String)
  usedDets : List Nat
  fixed : ℚ → IouTri
  adaptive : IouTri

/-- The per-file ground-truth lookup `{gt.id: gt for gt in current_gts}`
(v3 line 340); on duplicate ids the last entry wins, as in a Python dict
comprehension. -/
def gtLookup (gts : List GroundTruthError) (x : String) : Option GroundTruthError :=
  gts.reverse.find? (·.id == x)

/-- The candidate-pair collection of v3 lines 347-357: for each candidate
detection (index and record) whose claimed id is found in the file lookup
and not globally matched yet, the pair `(iou, index, det, gt)`. -/
def buildPairs (f : String) (gtsF : List GroundTruthError)
    (cands : List (Nat × DetectedErrorId)) (matched : List (String × String)) :
    List (ℚ × Nat × DetectedErrorId × GroundTruthError) :=
  cands.filterMap fun jd =>
    match gtLookup gtsF jd.2.detected_id with
    | none => none
    | some gt =>
      if (f, jd.2.detected_id) ∈ matched then none
      else some (calculate_iou gt.start_line gt.end_line jd.2.start_line jd.2.end_line,
                 jd.1, jd.2, gt)

/-- Stable insertion into a list of pairs sorted by descending IoU. -/
def insertByIouDesc (p : ℚ × Nat × DetectedErrorId × GroundTruthError) :
    List (ℚ × Nat × DetectedErrorId × GroundTruthError) →
    List (ℚ × Nat × DetectedErrorId × GroundTruthError)
  | [] => [p]
  | q :: qs => if p.1 ≥ q.1 then p :: q :: qs else q :: insertByIouDesc p qs

/-- Model of `pairs.sort(reverse=True, key=lambda x: x[0])` (v3 line 360):
a stable descending sort by IoU, rendered as insertion sort. -/
def sortPairsDesc : List (ℚ × Nat × DetectedErrorId × GroundTruthError) →
    List (ℚ × Nat × DetectedErrorId × GroundTruthError)
  | [] => []
  | p :: ps => insertByIouDesc p (sortPairsDesc ps)

open Classical in
/-- One iteration of the greedy loop of v3 lines 364-398: skip if the
ground truth is already matched or the detection already used; otherwise
build the entry, classify it adaptively, classify it against every fixed
threshold, and consume both the ground truth and the detection. -/
noncomputable def adaptPairStep (f : String) (st : AdaptState)
    (p : ℚ × Nat × DetectedErrorId × GroundTruthError) : AdaptState :=
  let iou := p.1
  let j := p.2.1
  let det := p.2.2.1
  let gt := p.2.2.2
  let key := (f, det.detected_id)
  if key ∈ st.matched ∨ j ∈ st.usedDets then st
  else
    let gt_lines := gt.end_line - gt.start_line + 1
    let required_iou := adaptive_iou_threshold gt_lines
    let is_adaptive_tp : Bool := if (iou : ℝ) ≥ required_iou then true else false
    let entry : IouEntry := ⟨f, gt.id, (gt.start_line, gt.end_line),
      (det.start_line, det.end_line), iou, required_iou, is_adaptive_tp,
      gt_lines, gt.error_description⟩
    { matched := key :: st.matched
      usedDets := j :: st.usedDets
      fixed := fun th =>
        let t := st.fixed th
        if iou ≥ th then { t with tp := t.tp ++ [entry] }
        else { t with fp := t.fp ++ [IouFpItem.belowFixed entry th] }
      adaptive :=
        if is_adaptive_tp
        then { st.adaptive with tp := st.adaptive.tp ++ [entry] }
        else { st.adaptive with fp := st.adaptive.fp ++ [IouFpItem.belowAdaptive entry] } }

/-- Append the same FP items to the adaptive FP list and to the FP list of
every fixed threshold (v3 lines 411-413 and 423-425). -/
def appendFPs (st : AdaptState) (items : List IouFpItem) : AdaptState :=
  { st with
    fixed := fun th => { st.fixed th with fp := (st.fixed th).fp ++ items }
    adaptive := { st.adaptive with fp := st.adaptive.fp ++ items } }

/-- Append the same FN entries to the adaptive FN list and to the FN list
of every fixed threshold (v3 lines 438-440). -/
def appendFNs (st : AdaptState) (items : List IouFNEntry) : AdaptState :=
  { st with
    fixed := fun th => { st.fixed th with fn := (st.fixed th).fn ++ items }
    adaptive := { st.adaptive with fn := st.adaptive.fn ++ items } }

open Classical in
/-- The body of the `for filename in ...` loop of v3
`match_errors_adaptive_smooth_iou` (lines 335-440) for one file name. -/
noncomputable def adaptFileStep (gt_errors : List GroundTruthError)
    (detsIdx : List (Nat × DetectedErrorId)) (st : AdaptState) (f : String) :
    AdaptState :=
  let gtsF := gt_errors.filter (·.filename == f)
  let detsF := detsIdx.filter (·.2.filename == f)
  let cands := detsF.filter (·.2.detected_id != "FP")
  let markedF := detsF.filter (·.2.detected_id == "FP")
  let pairs := sortPairsDesc (buildPairs f gtsF cands st.matched)
  let st1 := pairs.foldl (adaptPairStep f) { st with usedDets := [] }
  let unmatchedItems := cands.filterMap fun jd =>
    if jd.1 ∈ st1.usedDets then none
    else some (IouFpItem.unmatchedCand f jd.2.detected_id
      (jd.2.start_line, jd.2.end_line)
      (decide (gtLookup gtsF jd.2.detected_id = none)))
  let markedItems := markedF.map fun jd =>
    IouFpItem.markedFP f (jd.2.start_line, jd.2.end_line)
  let fnItems := (gtsF.filter (fun gt => decide ((f, gt.id) ∉ st1.matched))).map
    fun gt => (⟨f, gt.id, (gt.start_line, gt.end_line),
      adaptive_iou_threshold (gt.end_line - gt.start_line + 1),
      gt.error_description⟩ : IouFNEntry)
  appendFNs (appendFPs (appendFPs st1 unmatchedItems) markedItems) fnItems

/-- The full fold of v3 `match_errors_adaptive_smooth_iou` over all file
names, starting from empty accumulators. -/
noncomputable def adaptiveFinalState (gt_errors : List GroundTruthError)
    (det_errors : List DetectedErrorId) : AdaptState :=
  let files := ((gt_errors.map (·.filename)) ++ (det_errors.map (·.filename))).dedup
  files.foldl (adaptFileStep gt_errors det_errors.enum)
    ⟨[], [], fun _ => ⟨[], [], []⟩, ⟨[], [], []⟩⟩

/-- Stable ascending insertion for rational thresholds. -/
def insertThreshold (x : ℚ) : List ℚ → List ℚ
  | [] => [x]
  | y :: ys => if x ≤ y then x :: y :: ys else y :: insertThreshold x ys

/-- Model of `sorted(set(report_thresholds))` (v3 line 318). -/
def sortThresholds (ths : List ℚ) : List ℚ :=
  let rec go : List ℚ → List ℚ
    | [] => []
    | x :: xs => insertThreshold x (go xs)
  go ths.dedup

/-- `match_errors_adaptive_smooth_iou` of v3 (lines 307-455): the result
maps each reporting threshold to its `(tp, fp, fn)` triple (the
`fixed_results` dict, returned in the Python result dict as the keys
`fixed_0.25`, `fixed_0.50`, `fixed_0.75` for the default thresholds),
together with the adaptive triple (key `adaptive`). -/
noncomputable def match_errors_adaptive_smooth_iou
    (gt_errors : List GroundTruthError) (det_errors : List DetectedErrorId)
    (report_thresholds : List ℚ) : List (ℚ × IouTri) × IouTri :=
  let final := adaptiveFinalState gt_errors det_errors
  ((sortThresholds report_thresholds).map fun th => (th, final.fixed th),
   final.adaptive)

/-- Ground truth of the exact-match scenario: id "E001", file "A.java",
lines 10-10. -/
def gtExact : GroundTruthError :=
  ⟨"E001", "A.java", 10, 10, "cat", "seeded off-by-one", "high", ""⟩

/-- Finding of the exact-match scenario: file "A.java", lines 10-10. -/
def detExact : DetectedError := ⟨"A.java", 10, 10, "unknown", "off-by-one"⟩

/-- The exact-match finding as a v2/v3 record claiming id "E001". -/
def detIdExact : DetectedErrorId :=
  ⟨"A.java", 10, 10, "unknown", "off-by-one", "E001"⟩

/-- Ground truth of the shotgun scenario: file "A.java", lines 10-12. -/
def gtShotgun : GroundTruthError :=
  ⟨"E001", "A.java", 10, 12, "cat", "seeded bug", "high", ""⟩

/-- Shotgun finding: file "A.java", lines 1-100. -/
def detShotgun : DetectedError := ⟨"A.java", 1, 100, "unknown", "sweeping claim"⟩

/-- The shotgun finding as a v2/v3 record claiming id "E001". -/
def detIdShotgun : DetectedErrorId :=
  ⟨"A.java", 1, 100, "unknown", "sweeping claim", "E001"⟩

/-- First ground truth of the partition-violation input: lines 10-10. -/
def gtPartA : GroundTruthError := ⟨"G1", "A.java", 10, 10, "cat", "bug one", "high", ""⟩

/-- Second ground truth of the partition-violation input: lines 50-50. -/
def gtPartB : GroundTruthError := ⟨"G2", "A.java", 50, 50, "cat", "bug two", "high", ""⟩

/-- First finding of the partition-violation input: lines 8-30, which
classically matches `gtPartA` but fails the strict predicate. -/
def detPartA : DetectedError := ⟨"A.java", 8, 30, "unknown", "finding one"⟩

/-- Second finding of the partition-violation input: lines 48-52, which
classically and strictly matches `gtPartB`. -/
def detPartB : DetectedError := ⟨"A.java", 48, 52, "unknown", "finding two"⟩

/-- Ground truth for the duplicate-id counterexamples. -/
def gtDup : GroundTruthError := ⟨"E001", "B.java", 1, 2, "cat", "dup bug", "high", ""⟩

/-- First detection claiming id "E001". -/
def detDupA : DetectedErrorId := ⟨"B.java", 1, 2, "unknown", "first claim", "E001"⟩

/-- Second detection also claiming id "E001". -/
def detDupB : DetectedErrorId := ⟨"B.java", 5, 6, "unknown", "second claim", "E001"⟩

/-- Ground truth "E007" of the duplicate-detection scenario. -/
def gtE007 : GroundTruthError := ⟨"E007", "C.java", 3, 4, "cat", "bug seven", "high", ""⟩

/-- First detection claiming id "E007". -/
def detSevenA : DetectedErrorId := ⟨"C.java", 3, 4, "unknown", "claim one", "E007"⟩

/-- Second detection also claiming id "E007". -/
def detSevenB : DetectedErrorId := ⟨"C.java", 9, 9, "unknown", "claim two", "E007"⟩

/-- C4: for all natural-number counts, `calculate_metrics` returns
precision `tp/(tp+fp)`, recall `tp/(tp+fn)` and f1 `2pr/(p+r)`, each equal
to 0 when its denominator is zero (the Lean function is total, so no
division-by-zero error can be raised); in particular all three metrics are
0 at `(0,0,0)` and 1 at `(5,0,0)`. -/
theorem c4_metrics_zero_denominator_convention (tp fp fn : Nat) :
    ((calculate_metrics tp fp fn).precision =
      if tp + fp = 0 then 0 else (tp : ℚ) / ((tp : ℚ) + (fp : ℚ))) ∧
    ((calculate_metrics tp fp fn).«recall» =
      if tp + fn = 0 then 0 else (tp : ℚ) / ((tp : ℚ) + (fn : ℚ))) ∧
    ((calculate_metrics tp fp fn).f1 =
      if (calculate_metrics tp fp fn).precision + (calculate_metrics tp fp fn).«recall» = 0
      then 0
      else 2 * (calculate_metrics tp fp fn).precision * (calculate_metrics tp fp fn).«recall» /
        ((calculate_metrics tp fp fn).precision + (calculate_metrics tp fp fn).«recall»)) ∧
    calculate_metrics 0 0 0 = ⟨0, 0, 0, 0, 0, 0⟩ ∧
    calculate_metrics 5 0 0 = ⟨5, 0, 0, 1, 1, 1⟩ := by
  have key : ∀ x y : ℚ, 0 ≤ x → ((if 0 < x then y / x else 0) = if x = 0 then 0 else y / x) := by
    intro x y hx
    by_cases h : x = 0
    · simp [h]
    · rw [if_neg h, if_pos (lt_of_le_of_ne hx (Ne.symm h))]
  refine ⟨?_, ?_, ?_, by norm_num [calculate_metrics], by norm_num [calculate_metrics]⟩
  · by_cases h : tp + fp = 0
    · simp [calculate_metrics, h]
    · simp [calculate_metrics, h, Nat.pos_of_ne_zero h]
  · by_cases h : tp + fn = 0
    · simp [calculate_metrics, h]
    · simp [calculate_metrics, h, Nat.pos_of_ne_zero h]
  · simp only [calculate_metrics]
    apply key
    have h1 : (0:ℚ) ≤ if 0 < tp + fp then (tp : ℚ) / ((tp : ℚ) + (fp : ℚ)) else 0 := by
      split
      · positivity
      · exact le_refl 0
    have h2 : (0:ℚ) ≤ if 0 < tp + fn then (tp : ℚ) / ((tp : ℚ) + (fn : ℚ)) else 0 := by
      split
      · positivity
      · exact le_refl 0
    exact add_nonneg h1 h2

/-- C9 counterexample: with ground truth 10-10, detection 12-12 and
tolerance 1, v1 `lines_overlap` returns true although the
tolerance-expanded ground-truth interval [9, 11] does not intersect the
unexpanded detection interval [12, 12] — the implementation expands both
intervals by the tolerance. -/
theorem c9_lines_overlap_counterexample :
    lines_overlap 10 10 12 12 1 = true ∧
    ¬ ∃ x : Int, 10 - 1 ≤ x ∧ x ≤ 10 + 1 ∧ 12 ≤ x ∧ x ≤ 12 := by
  constructor
  · decide
  · rintro ⟨x, h1, h2, h3, h4⟩
    omega

/-- C9 amended: for nonempty ranges and nonnegative tolerance, the
`lines_overlap` of v1/v2/v3 is true iff the two intervals each expanded by
the tolerance intersect (equivalently, the ground-truth interval expanded
by twice the tolerance meets the raw detection interval), while the
`lines_overlap` of `run_evaluation.py` is true iff the tolerance-expanded
ground-truth interval meets the unexpanded detection interval, as the
claim states. -/
theorem c9_lines_overlap_characterization (gs ge ds de tol : Int)
    (h1 : gs ≤ ge) (h2 : ds ≤ de) (h3 : 0 ≤ tol) :
    (lines_overlap gs ge ds de tol = true ↔
      ∃ x : Int, gs - tol ≤ x ∧ x ≤ ge + tol ∧ ds - tol ≤ x ∧ x ≤ de + tol) ∧
    (lines_overlapRE gs ge ds de tol = true ↔
      ∃ x : Int, gs - tol ≤ x ∧ x ≤ ge + tol ∧ ds ≤ x ∧ x ≤ de) := by
  constructor
  · simp only [lines_overlap, Bool.not_eq_eq_eq_not, Bool.not_true, Bool.or_eq_false_iff,
      decide_eq_false_iff_not, not_lt]
    constructor
    · rintro ⟨ha, hb⟩
      refine ⟨max (gs - tol) (ds - tol), ?_, ?_, ?_, ?_⟩ <;> omega
    · rintro ⟨x, hx1, hx2, hx3, hx4⟩
      constructor <;> omega
  · simp only [lines_overlapRE, Bool.and_eq_true, decide_eq_true_eq, ge_iff_le]
    constructor
    · rintro ⟨ha, hb⟩
      refine ⟨max (gs - tol) ds, ?_, ?_, ?_, ?_⟩ <;> omega
    · rintro ⟨x, hx1, hx2, hx3, hx4⟩
      constructor <;> omega

/-- C9 witness: the characterization at ground truth 10-12, detection
11-11, tolerance 1. -/
theorem c9_lines_overlap_characterization_witness :
    ((10 : Int) ≤ 12 ∧ (11 : Int) ≤ 11 ∧ (0 : Int) ≤ 1) ∧
    ((lines_overlap 10 12 11 11 1 = true ↔
      ∃ x : Int, 10 - 1 ≤ x ∧ x ≤ 12 + 1 ∧ 11 - 1 ≤ x ∧ x ≤ 11 + 1) ∧
     (lines_overlapRE 10 12 11 11 1 = true ↔
      ∃ x : Int, 10 - 1 ≤ x ∧ x ≤ 12 + 1 ∧ 11 ≤ x ∧ x ≤ 11)) :=
  ⟨⟨by decide, by decide, by decide⟩,
   c9_lines_overlap_characterization 10 12 11 11 1 (by decide) (by decide) (by decide)⟩

/-- Helper: `log10 2 ≤ 1/2`, because `4 ≤ 10`. -/
theorem logb_ten_two_le_half : Real.logb 10 2 ≤ 1/2 := by
  have h4 : Real.logb 10 4 = Real.logb 10 2 + Real.logb 10 2 := by
    rw [← Real.logb_mul (by norm_num) (by norm_num)]
    norm_num
  have h10 : Real.logb 10 4 ≤ Real.logb 10 10 := by
    apply (Real.logb_le_logb (by norm_num) (by norm_num) (by norm_num)).mpr
    norm_num
  rw [Real.logb_self_eq_one (by norm_num)] at h10
  linarith

/-- C5 counterexample: the adaptive minimum-IoU threshold is NOT monotone
non-increasing from size 1 to size 2: the single-line tier is 0.85, while a
size-2 defect requires `max(0.30, 1 - 0.28*log10 2) ≈ 0.9157 > 0.85`.  This
refutes `adaptive_min_iou(s1) ≥ adaptive_min_iou(s2)` at `s1 = 1 < 2 = s2`. -/
theorem c5_adaptive_threshold_counterexample :
    adaptive_iou_threshold 1 < adaptive_iou_threshold 2 := by
  have hlog := logb_ten_two_le_half
  have h1 : adaptive_iou_threshold 1 = 0.85 := by
    simp [adaptive_iou_threshold]
  have h2 : (0.86 : ℝ) ≤ adaptive_iou_threshold 2 := by
    simp only [adaptive_iou_threshold]
    rw [if_neg (by norm_num)]
    have : (0.86 : ℝ) ≤ 1.00 - 0.28 * Real.logb 10 ((2 : Int) : ℝ) := by
      push_cast
      nlinarith
    exact le_trans this (le_max_right _ _)
  rw [h1]
  linarith

/-- C5 amended: the adaptive minimum-IoU threshold is monotone
non-increasing on defect sizes at least 2, and the single-line tier is the
distinguishable constant 0.85; monotonicity fails only where size 1 is
compared with sizes 2 and 3, whose thresholds exceed 0.85. -/
theorem c5_adaptive_threshold_monotone_from_two :
    (∀ s1 s2 : Int, 2 ≤ s1 → s1 ≤ s2 →
      adaptive_iou_threshold s2 ≤ adaptive_iou_threshold s1) ∧
    adaptive_iou_threshold 1 = 0.85 := by
  constructor
  · intro s1 s2 hs1 hs12
    simp only [adaptive_iou_threshold]
    rw [if_neg (by omega), if_neg (by omega)]
    apply max_le_max (le_refl _)
    have hlog : Real.logb 10 ((s1 : Int) : ℝ) ≤ Real.logb 10 ((s2 : Int) : ℝ) := by
      apply (Real.logb_le_logb (by norm_num) ?_ ?_).mpr
      · exact_mod_cast hs12
      · exact_mod_cast lt_of_lt_of_le (by norm_num) hs1
      · exact_mod_cast lt_of_lt_of_le (by norm_num) (le_trans hs1 hs12)
    nlinarith
  · simp [adaptive_iou_threshold]

/-- C5 witness: the amended monotonicity applied at sizes 2 and 5. -/
theorem c5_adaptive_threshold_monotone_witness :
    ((2 : Int) ≤ 2 ∧ (2 : Int) ≤ 5) ∧
    adaptive_iou_threshold 5 ≤ adaptive_iou_threshold 2 :=
  ⟨⟨by decide, by decide⟩,
   c5_adaptive_threshold_monotone_from_two.1 2 5 (by decide) (by decide)⟩

/-- C7: the v3 strict-match predicate rejects any finding whose span size
exceeds `min(gt_size*5 + 15, gt_size*3 + 60)` for a multi-line ground
truth; and on the concrete shotgun scenario (ground truth "A.java" 10-12 of
size 3, finding "A.java" 1-100), v1 `match_errors_both` with tolerance 1
yields a classic TP while the strict metric classifies the finding as FP
(and the ground truth as strict FN). -/
theorem c7_shotgun_rejection :
    (∀ (gt : GroundTruthError) (det : DetectedErrorId) (tol : Int),
      2 ≤ gt.end_line - gt.start_line + 1 →
      min ((gt.end_line - gt.start_line + 1) * 5 + 15)
          ((gt.end_line - gt.start_line + 1) * 3 + 60) <
        det.end_line - det.start_line + 1 →
      ¬ strict_matchV3 gt det tol) ∧
    match_errors_both [gtShotgun] [detShotgun] 1 =
      ⟨[mkTPEntry gtShotgun detShotgun], [], [],
       [], [mkFPEntry detShotgun], [mkFNEntry gtShotgun]⟩ := by
  constructor
  · intro gt det tol hsize hcap hmatch
    obtain ⟨-, -, h3⟩ := hmatch
    rw [if_neg (by omega)] at h3
    have hds := h3.2.1
    omega
  · norm_num [match_errors_both, processFileBoth, bothLoop, findLastOverlap, sortByStart,
      insertByStart, lines_overlap, strict_matchV1, mkTPEntry, mkFPEntry, mkFNEntry,
      gtShotgun, detShotgun, List.dedup, List.filter, List.flatMap]

/-- C7 witness: the cap rejection applied to the concrete shotgun pair
(ground-truth size 3, finding size 100 > min(30, 69) = 30). -/
theorem c7_shotgun_rejection_witness :
    (2 ≤ gtShotgun.end_line - gtShotgun.start_line + 1 ∧
     min ((gtShotgun.end_line - gtShotgun.start_line + 1) * 5 + 15)
         ((gtShotgun.end_line - gtShotgun.start_line + 1) * 3 + 60) <
       detIdShotgun.end_line - detIdShotgun.start_line + 1) ∧
    ¬ strict_matchV3 gtShotgun detIdShotgun 1 :=
  ⟨⟨by decide, by decide⟩,
   c7_shotgun_rejection.1 gtShotgun detIdShotgun 1 (by decide) (by decide)⟩

/-- C1: on the two-defect input (G1 at 10-10, G2 at 50-50) with findings
8-30 and 48-52 and tolerance 1, the strict output of `match_errors_both`
is NOT a partition of the ground truth: G2 appears both in a strict TP
entry and in the strict FN list, and G1 appears in neither.  The classic
output partitions correctly on the same input, and the strict counts still
satisfy |TP| + |FN| = 2; only the element-wise partition is broken, caused
by `remaining_strict.pop(i)` using the index computed for
`remaining_old`. -/
theorem c1_strict_partition_violation :
    (match_errors_both [gtPartA, gtPartB] [detPartA, detPartB] 1).tp_old.map (·.gt_id) =
      ["G1", "G2"] ∧
    (match_errors_both [gtPartA, gtPartB] [detPartA, detPartB] 1).fn_old = [] ∧
    (match_errors_both [gtPartA, gtPartB] [detPartA, detPartB] 1).tp_strict.map (·.gt_id) =
      ["G2"] ∧
    (match_errors_both [gtPartA, gtPartB] [detPartA, detPartB] 1).fn_strict.map (·.gt_id) =
      ["G2"] := by
  norm_num [match_errors_both, processFileBoth, bothLoop, findLastOverlap, sortByStart,
    insertByStart, lines_overlap, strict_matchV1, mkTPEntry, mkFPEntry, mkFNEntry,
    gtPartA, gtPartB, detPartA, detPartB, List.dedup, List.filter, List.flatMap]

/-- C6: on the exact-match scenario (ground truth "E001" at "A.java" 10-10,
finding "A.java" 10-10, tolerance 1) v1 `match_errors_both` yields the
classic result 1 TP / 0 FP / 0 FN as the claim states, but its strict
metric rejects the exact single-line match (0 TP / 1 FP / 1 FN): v1
`strict_match` computes the IoU against the tolerance-expanded ground
truth (1/5 = 0.2) and compares it with `max(0.30, 0.15) = 0.30` — the
`max` keeps the threshold at 0.30 although the adjacent comment says
single-line defects should accept a lower IoU.  The v2/v3 `strict_match`
accepts the same pair, as the claim expects. -/
theorem c6_exact_match_scenario :
    match_errors_both [gtExact] [detExact] 1 =
      ⟨[mkTPEntry gtExact detExact], [], [],
       [], [mkFPEntry detExact], [mkFNEntry gtExact]⟩ ∧
    strict_matchV3 gtExact detIdExact 1 := by
  constructor
  · norm_num [match_errors_both, processFileBoth, bothLoop, findLastOverlap, sortByStart,
      insertByStart, lines_overlap, strict_matchV1, mkTPEntry, mkFPEntry, mkFNEntry,
      gtExact, detExact, List.dedup, List.filter, List.flatMap]
  · refine ⟨rfl, by decide, ?_⟩
    norm_num [gtExact, detIdExact, calculate_iou]

/-- Helper for C2: along the v3 detection loop, the ids of the TP entries
are pairwise distinct and none of them is already in the `used_gt_ids`
accumulator. -/
theorem fdLoopV3_tp_ids_nodup (gts : List GroundTruthError) (cnt : String → Nat) :
    ∀ (ds : List DetectedErrorId) (used : List String),
      ((fdLoopV3 gts cnt used ds).1.map (·.detected_id)).Nodup ∧
      ∀ x ∈ (fdLoopV3 gts cnt used ds).1.map (·.detected_id), x ∉ used := by
  intro ds
  induction ds with
  | nil => intro used; simp [fdLoopV3]
  | cons d ds ih =>
    intro used
    by_cases h1 : d.detected_id = "FP" ∨ d.detected_id ∉ gtIdList gts
    · simpa [fdLoopV3, h1] using ih used
    · by_cases h2 : d.detected_id ∉ used ∧ 1 ≤ cnt d.detected_id
      · have ihh := ih (d.detected_id :: used)
        simp only [fdLoopV3, if_neg h1, if_pos h2, List.map_cons, List.nodup_cons,
          List.mem_cons, mkFdTP]
        refine ⟨⟨?_, ihh.1⟩, ?_⟩
        · intro hmem
          exact (ihh.2 _ hmem) (List.mem_cons_self _ _)
        · rintro x hx
          rcases hx with hx | hx
          · rw [hx]; exact h2.1
          · intro hxu
            exact (ihh.2 x hx) (List.mem_cons_of_mem _ hxu)
      · simpa [fdLoopV3, h1, h2] using ih used

/-- C2 counterexample: in the v2 id-based detection, two findings claiming
the same ground-truth id "E001" both become TP entries, so the id "E001"
appears in two TP entries — the at-most-one-match invariant fails for this
matching strategy. -/
theorem c2_v2_duplicate_tp_counterexample :
    (evaluate_fault_detectionV2 [gtDup] [detDupA, detDupB]).1.map (·.detected_id) =
      ["E001", "E001"] ∧
    ¬ ((evaluate_fault_detectionV2 [gtDup] [detDupA, detDupB]).1.map
        (·.detected_id)).Nodup := by
  constructor
  · decide
  · decide

/-- Helper: the id stored in the plain FP dict of v3 detection
(`det.detected_id if det.detected_id != "FP" else "FP"`) is always the
detection's own id. -/
theorem mkFdFPUnknown_id (d : DetectedErrorId) :
    (mkFdFPUnknown d).detected_id = d.detected_id := by
  by_cases h : d.detected_id = "FP"
  · simp [mkFdFPUnknown, h]
  · simp [mkFdFPUnknown, h]

/-- Helper for C3: for an id `x` that is the sentinel "FP" or absent from
the ground truth, the v3 detection loop puts no `x`-entry into the TP list
and turns every detection claiming `x` into a plain FP entry. -/
theorem fdLoopV3_filter_invalid (gts : List GroundTruthError) (cnt : String → Nat)
    (x : String) (hx : x = "FP" ∨ x ∉ gtIdList gts) :
    ∀ (ds : List DetectedErrorId) (used : List String),
      (fdLoopV3 gts cnt used ds).1.filter (·.detected_id == x) = [] ∧
      (fdLoopV3 gts cnt used ds).2.1.filter (·.detected_id == x) =
        (ds.filter (·.detected_id == x)).map mkFdFPUnknown := by
  intro ds
  induction ds with
  | nil => intro used; simp [fdLoopV3]
  | cons d ds ih =>
    intro used
    by_cases hdx : d.detected_id = x
    · have hb1 : d.detected_id = "FP" ∨ d.detected_id ∉ gtIdList gts := by
        rw [hdx]; exact hx
      refine ⟨?_, ?_⟩
      · simpa [fdLoopV3, hb1] using (ih used).1
      · simp only [fdLoopV3, if_pos hb1]
        rw [List.filter_cons_of_pos (by simp [mkFdFPUnknown_id, hdx]),
            List.filter_cons_of_pos (by simp [hdx])]
        simp only [List.map_cons]
        exact congrArg _ (ih used).2
    · by_cases hb1 : d.detected_id = "FP" ∨ d.detected_id ∉ gtIdList gts
      · refine ⟨?_, ?_⟩
        · simpa [fdLoopV3, hb1] using (ih used).1
        · simp only [fdLoopV3, if_pos hb1]
          rw [List.filter_cons_of_neg (by simp [mkFdFPUnknown_id, hdx]),
              List.filter_cons_of_neg (by simp [hdx])]
          exact (ih used).2
      · by_cases hb2 : d.detected_id ∉ used ∧ 1 ≤ cnt d.detected_id
        · refine ⟨?_, ?_⟩
          · simp only [fdLoopV3, if_neg hb1, if_pos hb2]
            rw [List.filter_cons_of_neg (by simp [mkFdTP, hdx])]
            exact (ih (d.detected_id :: used)).1
          · simp only [fdLoopV3, if_neg hb1, if_pos hb2]
            rw [List.filter_cons_of_neg (by simp [hdx])]
            exact (ih (d.detected_id :: used)).2
        · refine ⟨?_, ?_⟩
          · simpa [fdLoopV3, hb1, hb2] using (ih used).1
          · simp only [fdLoopV3, if_neg hb1, if_neg hb2]
            rw [List.filter_cons_of_neg (by simp [mkFdFPDup, hdx]),
                List.filter_cons_of_neg (by simp [hdx])]
            exact (ih used).2

/-- Helper for C3: for an id `x` that belongs to the ground truth and is
not the sentinel, the v3 detection loop classifies the first detection
claiming `x` (when `x` is not yet used) as the unique `x`-TP and every
later detection claiming `x` as a duplicate FP; if `x` is already used,
every detection claiming `x` becomes a duplicate FP. -/
theorem fdLoopV3_filter_valid (gts : List GroundTruthError) (cnt : String → Nat)
    (x : String) (hx : x ≠ "FP") (hg : x ∈ gtIdList gts) :
    ∀ (ds : List DetectedErrorId) (used : List String),
      (∀ d ∈ ds, d.detected_id ≠ "FP" → 1 ≤ cnt d.detected_id) →
      ((x ∈ used →
        (fdLoopV3 gts cnt used ds).1.filter (·.detected_id == x) = [] ∧
        (fdLoopV3 gts cnt used ds).2.1.filter (·.detected_id == x) =
          (ds.filter (·.detected_id == x)).map mkFdFPDup) ∧
      (x ∉ used →
        (fdLoopV3 gts cnt used ds).1.filter (·.detected_id == x) =
          ((ds.filter (·.detected_id == x)).take 1).map mkFdTP ∧
        (fdLoopV3 gts cnt used ds).2.1.filter (·.detected_id == x) =
          ((ds.filter (·.detected_id == x)).drop 1).map mkFdFPDup)) := by
  intro ds
  induction ds with
  | nil => intro used _; simp [fdLoopV3]
  | cons d ds ih =>
    intro used hcnt
    have hcnt' : ∀ d' ∈ ds, d'.detected_id ≠ "FP" → 1 ≤ cnt d'.detected_id :=
      fun d' hd' => hcnt d' (List.mem_cons_of_mem _ hd')
    by_cases hdx : d.detected_id = x
    · have hb1 : ¬(d.detected_id = "FP" ∨ d.detected_id ∉ gtIdList gts) := by
        rw [hdx]; push_neg; exact ⟨hx, hg⟩
      constructor
      · intro hu
        have hb2 : ¬(d.detected_id ∉ used ∧ 1 ≤ cnt d.detected_id) := by
          rw [hdx]; intro h; exact h.1 hu
        have ihh := (ih used hcnt').1 hu
        refine ⟨?_, ?_⟩
        · simpa [fdLoopV3, hb1, hb2] using ihh.1
        · simp only [fdLoopV3, if_neg hb1, if_neg hb2]
          rw [List.filter_cons_of_pos (by simp [mkFdFPDup, hdx]),
              List.filter_cons_of_pos (by simp [hdx])]
          simp only [List.map_cons]
          exact congrArg _ ihh.2
      · intro hu
        have hb2 : d.detected_id ∉ used ∧ 1 ≤ cnt d.detected_id := by
          refine ⟨by rw [hdx]; exact hu, ?_⟩
          exact hcnt d (List.mem_cons_self _ _) (by rw [hdx]; exact hx)
        have hu' : x ∈ d.detected_id :: used := by
          rw [hdx]; exact List.mem_cons_self _ _
        have ihh := (ih (d.detected_id :: used) hcnt').1 hu'
        refine ⟨?_, ?_⟩
        · simp only [fdLoopV3, if_neg hb1, if_pos hb2]
          rw [List.filter_cons_of_pos (by simp [mkFdTP, hdx]),
              List.filter_cons_of_pos (by simp [hdx])]
          rw [ihh.1]
          simp
        · simp only [fdLoopV3, if_neg hb1, if_pos hb2]
          rw [List.filter_cons_of_pos (by simp [hdx])]
          simpa using ihh.2
    · have hq : (d.detected_id == x) = false := by simp [hdx]
      by_cases hb1 : d.detected_id = "FP" ∨ d.detected_id ∉ gtIdList gts
      · constructor
        · intro hu
          have ihh := (ih used hcnt').1 hu
          refine ⟨?_, ?_⟩
          · simpa [fdLoopV3, hb1] using ihh.1
          · simp only [fdLoopV3, if_pos hb1]
            rw [List.filter_cons_of_neg (by simp [mkFdFPUnknown_id, hdx]),
                List.filter_cons_of_neg (by simp [hq])]
            exact ihh.2
        · intro hu
          have ihh := (ih used hcnt').2 hu
          refine ⟨?_, ?_⟩
          · simp only [fdLoopV3, if_pos hb1]
            rw [List.filter_cons_of_neg (by simp [hq])]
            exact ihh.1
          · simp only [fdLoopV3, if_pos hb1]
            rw [List.filter_cons_of_neg (by simp [mkFdFPUnknown_id, hdx]),
                List.filter_cons_of_neg (by simp [hq])]
            exact ihh.2
      · by_cases hb2 : d.detected_id ∉ used ∧ 1 ≤ cnt d.detected_id
        · constructor
          · intro hu
            have hu' : x ∈ d.detected_id :: used := List.mem_cons_of_mem _ hu
            have ihh := (ih (d.detected_id :: used) hcnt').1 hu'
            refine ⟨?_, ?_⟩
            · simp only [fdLoopV3, if_neg hb1, if_pos hb2]
              rw [List.filter_cons_of_neg (by simp [mkFdTP, hdx])]
              exact ihh.1
            · simp only [fdLoopV3, if_neg hb1, if_pos hb2]
              rw [List.filter_cons_of_neg (by simp [hq])]
              exact ihh.2
          · intro hu
            have hu' : x ∉ d.detected_id :: used := by
              intro hmem
              rcases List.mem_cons.mp hmem with h | h
              · exact hdx h.symm
              · exact hu h
            have ihh := (ih (d.detected_id :: used) hcnt').2 hu'
            refine ⟨?_, ?_⟩
            · simp only [fdLoopV3, if_neg hb1, if_pos hb2]
              rw [List.filter_cons_of_neg (by simp [mkFdTP, hdx]),
                  List.filter_cons_of_neg (by simp [hq])]
              exact ihh.1
            · simp only [fdLoopV3, if_neg hb1, if_pos hb2]
              rw [List.filter_cons_of_neg (by simp [hq])]
              exact ihh.2
        · constructor
          · intro hu
            have ihh := (ih used hcnt').1 hu
            refine ⟨?_, ?_⟩
            · simpa [fdLoopV3, hb1, hb2] using ihh.1
            · simp only [fdLoopV3, if_neg hb1, if_neg hb2]
              rw [List.filter_cons_of_neg (by simp [mkFdFPDup, hdx]),
                  List.filter_cons_of_neg (by simp [hq])]
              exact ihh.2
          · intro hu
            have ihh := (ih used hcnt').2 hu
            refine ⟨?_, ?_⟩
            · simp only [fdLoopV3, if_neg hb1, if_neg hb2]
              rw [List.filter_cons_of_neg (by simp [hq])]
              exact ihh.1
            · simp only [fdLoopV3, if_neg hb1, if_neg hb2]
              rw [List.filter_cons_of_neg (by simp [mkFdFPDup, hdx]),
                  List.filter_cons_of_neg (by simp [hq])]
              exact ihh.2

/-- Helper: a detection with a non-sentinel id contributes to its own
detection count. -/
theorem detectionCount_pos (dets : List DetectedErrorId) (d : DetectedErrorId)
    (hd : d ∈ dets) (hfp : d.detected_id ≠ "FP") :
    1 ≤ detectionCount dets d.detected_id := by
  have hmem : d ∈ dets.filter
      (fun e => e.detected_id != "FP" && e.detected_id == d.detected_id) :=
    List.mem_filter.mpr ⟨hd, by simp [hfp]⟩
  exact List.length_pos.mpr (List.ne_nil_of_mem hmem)

/-- C3 (amended): in the v3 id-based detection, for any id `x` that exists
in the ground truth, the TP entries claiming `x` are exactly the first
detection (in input order) claiming `x`, and the FP entries claiming `x`
are exactly all the later detections claiming `x`, each marked as a
duplicate; for the sentinel "FP" or an id absent from ground truth, no TP
entry claims `x` and every detection claiming `x` is a plain FP. -/
theorem c3_v3_first_claim_is_tp (gts : List GroundTruthError)
    (dets : List DetectedErrorId) (x : String) :
    (x ≠ "FP" → x ∈ gtIdList gts →
      (evaluate_fault_detectionV3 gts dets).1.filter (·.detected_id == x) =
        ((dets.filter (·.detected_id == x)).take 1).map mkFdTP ∧
      (evaluate_fault_detectionV3 gts dets).2.1.filter (·.detected_id == x) =
        ((dets.filter (·.detected_id == x)).drop 1).map mkFdFPDup) ∧
    ((x = "FP" ∨ x ∉ gtIdList gts) →
      (evaluate_fault_detectionV3 gts dets).1.filter (·.detected_id == x) = [] ∧
      (evaluate_fault_detectionV3 gts dets).2.1.filter (·.detected_id == x) =
        (dets.filter (·.detected_id == x)).map mkFdFPUnknown) := by
  constructor
  · intro hx hg
    exact (fdLoopV3_filter_valid gts (detectionCount dets) x hx hg dets []
      (fun d hd hfp => detectionCount_pos dets d hd hfp)).2 (by simp)
  · intro hx
    exact fdLoopV3_filter_invalid gts (detectionCount dets) x hx dets []

/-- C3 witness: the characterization applied to ground truth "E007" and
two detections both claiming "E007". -/
theorem c3_v3_first_claim_is_tp_witness :
    ("E007" ≠ "FP" ∧ "E007" ∈ gtIdList [gtE007]) ∧
    ((evaluate_fault_detectionV3 [gtE007] [detSevenA, detSevenB]).1.filter
        (·.detected_id == "E007") =
      (([detSevenA, detSevenB].filter (·.detected_id == "E007")).take 1).map mkFdTP ∧
     (evaluate_fault_detectionV3 [gtE007] [detSevenA, detSevenB]).2.1.filter
        (·.detected_id == "E007") =
      (([detSevenA, detSevenB].filter (·.detected_id == "E007")).drop 1).map mkFdFPDup) :=
  ⟨⟨by decide, by decide⟩,
   (c3_v3_first_claim_is_tp [gtE007] [detSevenA, detSevenB] "E007").1
     (by decide) (by decide)⟩

/-- C3 counterexample: the v2 id-based detection classifies BOTH findings
claiming "E007" as TP (2 TP, 0 FP), not "exactly the first TP, subsequent
FP" — the duplicate-detection rule fails for this identity-matching
implementation. -/
theorem c3_v2_no_duplicate_detection_counterexample :
    (evaluate_fault_detectionV2 [gtE007] [detSevenA, detSevenB]).1.length = 2 ∧
    (evaluate_fault_detectionV2 [gtE007] [detSevenA, detSevenB]).2.1 = [] := by
  constructor
  · decide
  · decide

/-- Helper for C8: along the v1 detection loop, every strict TP entry is
also a classic TP entry (the strict TP is appended only in the iteration
that appends the same classic TP). -/
theorem bothLoop_strict_subset (tolerance : Int) :
    ∀ (ds : List DetectedError) (remO remS : List GroundTruthError),
      (bothLoop tolerance remO remS ds).tp_strict ⊆
        (bothLoop tolerance remO remS ds).tp_old := by
  intro ds
  induction ds with
  | nil => intro remO remS; simp [bothLoop]
  | cons det ds ih =>
    intro remO remS
    cases h : findLastOverlap det tolerance remO with
    | none => simpa [bothLoop, h] using ih remO remS
    | some p =>
      obtain ⟨i, gt⟩ := p
      by_cases hs : strict_matchV1 gt det tolerance 0.30 = true
      · simp only [bothLoop, h, hs, if_true]
        exact List.cons_subset_cons _ (ih _ _)
      · simp only [bothLoop, h, hs, if_false, Bool.false_eq_true]
        exact (ih _ _).trans (List.subset_cons_self _ _)

/-- Helper for C8: along the v1 detection loop, every detection lands in
exactly one of the strict TP and strict FP lists, so their lengths add up
to the number of detections. -/
theorem bothLoop_strict_count (tolerance : Int) :
    ∀ (ds : List DetectedError) (remO remS : List GroundTruthError),
      (bothLoop tolerance remO remS ds).tp_strict.length +
        (bothLoop tolerance remO remS ds).fp_strict.length = ds.length := by
  intro ds
  induction ds with
  | nil => intro remO remS; simp [bothLoop]
  | cons det ds ih =>
    intro remO remS
    cases h : findLastOverlap det tolerance remO with
    | none =>
      have := ih remO remS
      simp only [bothLoop, h, List.length_cons]
      omega
    | some p =>
      obtain ⟨i, gt⟩ := p
      by_cases hs : strict_matchV1 gt det tolerance 0.30 = true
      · have := ih (remO.eraseIdx i) (if strict_matchV1 gt det tolerance 0.30 = true
          then remS.eraseIdx i else remS)
        simp only [bothLoop, h, hs, if_true, List.length_cons]
        simp only [hs, if_true] at this
        omega
      · have := ih (remO.eraseIdx i) (if strict_matchV1 gt det tolerance 0.30 = true
          then remS.eraseIdx i else remS)
        simp only [bothLoop, h, hs, if_false, Bool.false_eq_true, List.length_cons]
        simp only [hs, if_false, Bool.false_eq_true] at this
        omega

/-- Helper: stable insertion grows the length by one. -/
theorem insertByStart_length (d : DetectedError) :
    ∀ l : List DetectedError, (insertByStart d l).length = l.length + 1 := by
  intro l
  induction l with
  | nil => simp [insertByStart]
  | cons e es ih =>
    by_cases h : d.start_line ≤ e.start_line
    · simp [insertByStart, h]
    · simp [insertByStart, h, ih]

/-- Helper: the stable sort by start line preserves the length. -/
theorem sortByStart_length : ∀ l : List DetectedError,
    (sortByStart l).length = l.length := by
  intro l
  induction l with
  | nil => rfl
  | cons d ds ih => simp [sortByStart, insertByStart_length, ih]

/-- Helper for C8: per-file strict partition count of `match_errors_both`. -/
theorem processFileBoth_strict_count (tolerance : Int)
    (gts : List GroundTruthError) (dets : List DetectedError) :
    (processFileBoth tolerance gts dets).tp_strict.length +
      (processFileBoth tolerance gts dets).fp_strict.length = dets.length := by
  have h := bothLoop_strict_count tolerance (sortByStart dets) gts gts
  simpa [processFileBoth, sortByStart_length] using h

/-- Helper: sums of mapped sums distribute over pointwise addition. -/
theorem sum_map_add_distrib {α : Type} (l : List α) (f g : α → Nat) :
    (l.map (fun x => f x + g x)).sum = (l.map f).sum + (l.map g).sum := by
  induction l with
  | nil => simp
  | cons a l ih =>
    simp only [List.map_cons, List.sum_cons, ih]
    omega

/-- Helper: splitting a membership filter at the head of the name list. -/
theorem length_filter_mem_cons (l : List DetectedError) (f : String)
    (fs : List String) (hf : f ∉ fs) :
    (l.filter (·.filename == f)).length +
      (l.filter (fun d => decide (d.filename ∈ fs))).length =
      (l.filter (fun d => decide (d.filename ∈ f :: fs))).length := by
  induction l with
  | nil => simp
  | cons d l ihl =>
    simp only [List.filter_cons]
    by_cases h1 : d.filename = f
    · have h2 : d.filename ∉ fs := by rw [h1]; exact hf
      rw [if_pos (by simp [h1]), if_neg (by simp [h2]),
        if_pos (by simp [List.mem_cons, h1])]
      simp only [List.length_cons]
      omega
    · by_cases h2 : d.filename ∈ fs
      · rw [if_neg (by simp [h1]), if_pos (by simp [h2]),
          if_pos (by simp [List.mem_cons, h2])]
        simp only [List.length_cons]
        omega
      · rw [if_neg (by simp [h1]), if_neg (by simp [h2]),
          if_neg (by simp [List.mem_cons, h1, h2])]
        exact ihl

/-- Helper: summing the sizes of the per-file-name buckets of a detection
list over a duplicate-free name list counts the detections whose file name
occurs in the name list. -/
theorem sum_length_filter_eq (l : List DetectedError) :
    ∀ (fs : List String), fs.Nodup →
      ((fs.map (fun f => (l.filter (·.filename == f)).length)).sum) =
        (l.filter (fun d => decide (d.filename ∈ fs))).length := by
  intro fs
  induction fs with
  | nil => intro _; simp
  | cons f fs ih =>
    intro hnd
    rw [List.map_cons, List.sum_cons, ih (List.nodup_cons.mp hnd).2]
    exact length_filter_mem_cons l f fs (List.nodup_cons.mp hnd).1

/-- Helper for C8: every detection file name occurs in the deduplicated
file-name list used by `match_errors_both`. -/
theorem mem_files_of_det (gt_errors : List GroundTruthError)
    (det_errors : List DetectedError) (d : DetectedError) (hd : d ∈ det_errors) :
    d.filename ∈ ((gt_errors.map (·.filename)) ++ (det_errors.map (·.filename))).dedup := by
  rw [List.mem_dedup]
  exact List.mem_append_right _ (List.mem_map_of_mem _ hd)

/-- Helper for C8: the strict TP list of `match_errors_both` is contained
in the classic TP list. -/
theorem match_errors_both_strict_subset (gt_errors : List GroundTruthError)
    (det_errors : List DetectedError) (tolerance : Int) :
    (match_errors_both gt_errors det_errors tolerance).tp_strict ⊆
      (match_errors_both gt_errors det_errors tolerance).tp_old := by
  intro e he
  simp only [match_errors_both, List.mem_flatMap, List.mem_map] at he ⊢
  obtain ⟨r, ⟨f, hf, hr⟩, her⟩ := he
  refine ⟨r, ⟨f, hf, hr⟩, ?_⟩
  subst hr
  exact bothLoop_strict_subset tolerance _ _ _ her

/-- Helper for C8: `match_errors_both` drops no detection from the strict
metric — strict TP and strict FP counts add up to the number of
detections. -/
theorem match_errors_both_strict_count (gt_errors : List GroundTruthError)
    (det_errors : List DetectedError) (tolerance : Int) :
    (match_errors_both gt_errors det_errors tolerance).tp_strict.length +
      (match_errors_both gt_errors det_errors tolerance).fp_strict.length =
      det_errors.length := by
  simp only [match_errors_both, List.length_flatMap, List.map_map]
  rw [← sum_map_add_distrib]
  trans ((((gt_errors.map (·.filename)) ++ (det_errors.map (·.filename))).dedup.map
      (fun f => (det_errors.filter (·.filename == f)).length)).sum)
  · apply congrArg List.sum
    apply List.map_congr_left
    intro f _
    simp only [Function.comp]
    exact processFileBoth_strict_count tolerance _ _
  · rw [sum_length_filter_eq det_errors _ (List.nodup_dedup _)]
    rw [List.filter_eq_self.mpr]
    intro d hd
    simpa using mem_files_of_det gt_errors det_errors d hd

/-- Helper for C8: per detection, the strict TP contribution of the v2
localization step is contained in its classic TP contribution. -/
theorem locStepV2_strict_subset (gts : List GroundTruthError) (tolerance : Int)
    (det : DetectedErrorId) :
    (locStepV2 gts tolerance det).2.2.1 ⊆ (locStepV2 gts tolerance det).1 := by
  cases h : gts.find? (fun g => g.filename == det.filename && g.id == det.detected_id) with
  | none => simp [locStepV2, h]
  | some gt =>
    by_cases hov : lines_overlap gt.start_line gt.end_line det.start_line
        det.end_line tolerance = true
    · by_cases hs : strict_matchV3 gt det tolerance
      · simp [locStepV2, h, hov, hs]
      · simp [locStepV2, h, hov, hs]
    · simp [locStepV2, h, hov]

/-- Helper for C8: per detection, every classic TP entry of the v2
localization step either reappears as a strict TP or reappears in the
strict FP contribution annotated with the bad-localization note. -/
theorem locStepV2_not_dropped (gts : List GroundTruthError) (tolerance : Int)
    (det : DetectedErrorId) :
    ∀ e ∈ (locStepV2 gts tolerance det).1,
      e ∈ (locStepV2 gts tolerance det).2.2.1 ∨
      LocFpItem.fromEntry { e with note := LocNote.badLocalization } ∈
        (locStepV2 gts tolerance det).2.2.2 := by
  intro e he
  cases h : gts.find? (fun g => g.filename == det.filename && g.id == det.detected_id) with
  | none => simp [locStepV2, h] at he
  | some gt =>
    by_cases hov : lines_overlap gt.start_line gt.end_line det.start_line
        det.end_line tolerance = true
    · by_cases hs : strict_matchV3 gt det tolerance
      · left
        simp [locStepV2, h, hov, hs] at he ⊢
        exact he
      · right
        simp [locStepV2, h, hov, hs] at he ⊢
        simp [he]
    · simp [locStepV2, h, hov] at he

/-- C8: for every input processed with the same tolerance, (i) the strict
TP list of v1 `match_errors_both` is contained in its classic TP list,
(ii) no finding is dropped from the strict metric — strict TP and strict
FP counts add up to the number of findings, so a classic TP that fails the
strict predicate is counted as a strict FP; and likewise for the v2
localization engine: (iii) its strict TP list is contained in its classic
TP list and (iv) every classic TP entry either reappears as a strict TP or
reappears in the strict FP list annotated "bad_localization". -/
theorem c8_strict_subset_of_classic (gt_errors : List GroundTruthError)
    (det_errors : List DetectedError) (detid_errors : List DetectedErrorId)
    (tolerance : Int) :
    ((match_errors_both gt_errors det_errors tolerance).tp_strict ⊆
      (match_errors_both gt_errors det_errors tolerance).tp_old) ∧
    ((match_errors_both gt_errors det_errors tolerance).tp_strict.length +
      (match_errors_both gt_errors det_errors tolerance).fp_strict.length =
      det_errors.length) ∧
    ((match_errors_localizationV2 gt_errors detid_errors tolerance).2.1 ⊆
      (match_errors_localizationV2 gt_errors detid_errors tolerance).1.1) ∧
    (∀ e ∈ (match_errors_localizationV2 gt_errors detid_errors tolerance).1.1,
      e ∈ (match_errors_localizationV2 gt_errors detid_errors tolerance).2.1 ∨
      LocFpItem.fromEntry { e with note := LocNote.badLocalization } ∈
        (match_errors_localizationV2 gt_errors detid_errors tolerance).2.2.1) := by
  refine ⟨match_errors_both_strict_subset _ _ _,
          match_errors_both_strict_count _ _ _, ?_, ?_⟩
  · intro e he
    simp only [match_errors_localizationV2, List.mem_flatMap] at he ⊢
    obtain ⟨d, hd, hed⟩ := he
    exact ⟨d, hd, locStepV2_strict_subset gt_errors tolerance d hed⟩
  · intro e he
    simp only [match_errors_localizationV2, List.mem_flatMap] at he
    obtain ⟨d, hd, hed⟩ := he
    rcases locStepV2_not_dropped gt_errors tolerance d e hed with h | h
    · left
      simp only [match_errors_localizationV2, List.mem_flatMap]
      exact ⟨d, hd, h⟩
    · right
      simp only [match_errors_localizationV2]
      apply List.mem_append_left
      simp only [List.mem_flatMap]
      exact ⟨d, hd, h⟩

/-- C8 witness: the not-dropped count applied to one unmatchable finding
(empty ground truth): the strict TP and FP lists together hold exactly
that finding. -/
theorem c8_strict_subset_of_classic_witness :
    (match_errors_both [] [detExact] 1).tp_strict.length +
      (match_errors_both [] [detExact] 1).fp_strict.length =
      [detExact].length :=
  (c8_strict_subset_of_classic [] [detExact] [] 1).2.1

/-- Helper for C10: one greedy step preserves the threshold-monotonicity of
the fixed-threshold TP lists (a matched pair is appended to the TP list of
every threshold at most its IoU, so lower thresholds collect supersets). -/
theorem adaptPairStep_fixed_mono (f : String) (st : AdaptState)
    (p : ℚ × Nat × DetectedErrorId × GroundTruthError)
    (hst : ∀ t1 t2 : ℚ, t1 ≤ t2 → (st.fixed t2).tp ⊆ (st.fixed t1).tp) :
    ∀ t1 t2 : ℚ, t1 ≤ t2 →
      ((adaptPairStep f st p).fixed t2).tp ⊆ ((adaptPairStep f st p).fixed t1).tp := by
  intro t1 t2 h12 e he
  by_cases hskip : (f, p.2.2.1.detected_id) ∈ st.matched ∨ p.2.1 ∈ st.usedDets
  · simp only [adaptPairStep, if_pos hskip] at he ⊢
    exact hst t1 t2 h12 he
  · simp only [adaptPairStep, if_neg hskip] at he ⊢
    by_cases h2 : p.1 ≥ t2
    · rw [if_pos h2] at he
      have h1 : p.1 ≥ t1 := le_trans h12 h2
      rw [if_pos h1]
      simp only [List.mem_append] at he ⊢
      rcases he with he | he
      · exact Or.inl (hst t1 t2 h12 he)
      · exact Or.inr he
    · rw [if_neg h2] at he
      simp only at he
      have hmem := hst t1 t2 h12 he
      by_cases h1 : p.1 ≥ t1
      · rw [if_pos h1]
        exact List.mem_append_left _ hmem
      · rw [if_neg h1]
        exact hmem

/-- Helper for C10: the greedy fold over all candidate pairs preserves the
threshold-monotonicity of the fixed-threshold TP lists. -/
theorem foldl_adaptPairStep_fixed_mono (f : String) :
    ∀ (ps : List (ℚ × Nat × DetectedErrorId × GroundTruthError)) (st : AdaptState),
      (∀ t1 t2 : ℚ, t1 ≤ t2 → (st.fixed t2).tp ⊆ (st.fixed t1).tp) →
      ∀ t1 t2 : ℚ, t1 ≤ t2 →
        ((ps.foldl (adaptPairStep f) st).fixed t2).tp ⊆
          ((ps.foldl (adaptPairStep f) st).fixed t1).tp := by
  intro ps
  induction ps with
  | nil => intro st hst; exact hst
  | cons p ps ih =>
    intro st hst
    exact ih (adaptPairStep f st p) (adaptPairStep_fixed_mono f st p hst)

/-- Helper for C10: appending FP items to every threshold leaves all fixed
TP lists unchanged. -/
theorem appendFPs_fixed_tp (st : AdaptState) (items : List IouFpItem) (t : ℚ) :
    ((appendFPs st items).fixed t).tp = (st.fixed t).tp := rfl

/-- Helper for C10: appending FN entries to every threshold leaves all
fixed TP lists unchanged. -/
theorem appendFNs_fixed_tp (st : AdaptState) (items : List IouFNEntry) (t : ℚ) :
    ((appendFNs st items).fixed t).tp = (st.fixed t).tp := rfl

/-- Helper for C10: processing one file preserves the
threshold-monotonicity of the fixed-threshold TP lists. -/
theorem adaptFileStep_fixed_mono (gt_errors : List GroundTruthError)
    (detsIdx : List (Nat × DetectedErrorId)) (st : AdaptState) (f : String)
    (hst : ∀ t1 t2 : ℚ, t1 ≤ t2 → (st.fixed t2).tp ⊆ (st.fixed t1).tp) :
    ∀ t1 t2 : ℚ, t1 ≤ t2 →
      ((adaptFileStep gt_errors detsIdx st f).fixed t2).tp ⊆
        ((adaptFileStep gt_errors detsIdx st f).fixed t1).tp := by
  intro t1 t2 h12
  simp only [adaptFileStep, appendFNs_fixed_tp, appendFPs_fixed_tp]
  exact foldl_adaptPairStep_fixed_mono f _ { st with usedDets := [] } hst t1 t2 h12

/-- Helper for C10: the final state of the adaptive matcher has
threshold-monotone fixed TP lists. -/
theorem adaptiveFinalState_fixed_mono (gt_errors : List GroundTruthError)
    (det_errors : List DetectedErrorId) :
    ∀ t1 t2 : ℚ, t1 ≤ t2 →
      ((adaptiveFinalState gt_errors det_errors).fixed t2).tp ⊆
        ((adaptiveFinalState gt_errors det_errors).fixed t1).tp := by
  have main : ∀ (fs : List String) (st : AdaptState),
      (∀ t1 t2 : ℚ, t1 ≤ t2 → (st.fixed t2).tp ⊆ (st.fixed t1).tp) →
      ∀ t1 t2 : ℚ, t1 ≤ t2 →
        ((fs.foldl (adaptFileStep gt_errors det_errors.enum) st).fixed t2).tp ⊆
          ((fs.foldl (adaptFileStep gt_errors det_errors.enum) st).fixed t1).tp := by
    intro fs
    induction fs with
    | nil => intro st hst; exact hst
    | cons f fs ih =>
      intro st hst
      exact ih _ (adaptFileStep_fixed_mono gt_errors det_errors.enum st f hst)
  exact main _ _ (fun t1 t2 _ => by simp)

/-- C10: in the multi-threshold IoU matching, for any two reporting
thresholds `t1 ≤ t2`, every matched pair reported as TP at `t2` is also
reported as TP at `t1` — the fixed-threshold TP lists are nested, because
all thresholds replay the same single greedy assignment. -/
theorem c10_fixed_threshold_tp_nested (gt_errors : List GroundTruthError)
    (det_errors : List DetectedErrorId) (report_thresholds : List ℚ)
    (t1 t2 : ℚ) (r1 r2 : IouTri) (h12 : t1 ≤ t2)
    (hm1 : (t1, r1) ∈
      (match_errors_adaptive_smooth_iou gt_errors det_errors report_thresholds).1)
    (hm2 : (t2, r2) ∈
      (match_errors_adaptive_smooth_iou gt_errors det_errors report_thresholds).1) :
    r2.tp ⊆ r1.tp := by
  simp only [match_errors_adaptive_smooth_iou, List.mem_map] at hm1 hm2
  obtain ⟨th1, -, heq1⟩ := hm1
  obtain ⟨th2, -, heq2⟩ := hm2
  rw [Prod.mk.injEq] at heq1 heq2
  obtain ⟨h1a, h1b⟩ := heq1
  obtain ⟨h2a, h2b⟩ := heq2
  subst h1a
  subst h2a
  rw [← h1b, ← h2b]
  exact adaptiveFinalState_fixed_mono gt_errors det_errors th1 th2 h12

/-- C10 witness: the nesting applied to the thresholds 0 and 1 of the
empty run. -/
theorem c10_fixed_threshold_tp_nested_witness :
    ((0 : ℚ) ≤ 1) ∧
    ((0 : ℚ), (adaptiveFinalState [] []).fixed 0) ∈
      (match_errors_adaptive_smooth_iou [] [] [0, 1]).1 ∧
    ((1 : ℚ), (adaptiveFinalState [] []).fixed 1) ∈
      (match_errors_adaptive_smooth_iou [] [] [0, 1]).1 ∧
    ((adaptiveFinalState [] []).fixed 1).tp ⊆
      ((adaptiveFinalState [] []).fixed 0).tp := by
  have hm0 : ((0 : ℚ), (adaptiveFinalState [] []).fixed 0) ∈
      (match_errors_adaptive_smooth_iou [] [] [0, 1]).1 := by
    simp [match_errors_adaptive_smooth_iou, sortThresholds, sortThresholds.go,
      insertThreshold, List.dedup]
  have hm1 : ((1 : ℚ), (adaptiveFinalState [] []).fixed 1) ∈
      (match_errors_adaptive_smooth_iou [] [] [0, 1]).1 := by
    simp [match_errors_adaptive_smooth_iou, sortThresholds, sortThresholds.go,
      insertThreshold, List.dedup]
  exact ⟨zero_le_one, hm0, hm1,
    c10_fixed_threshold_tp_nested [] [] [0, 1] 0 1 _ _ zero_le_one hm0 hm1⟩

/-- Helper: the backward greedy scan returns an index/element pair of the
remaining pool. -/
theorem findLastOverlap_getElem? (det : DetectedError) (tolerance : Int) :
    ∀ (rem : List GroundTruthError) (i : Nat) (gt : GroundTruthError),
      findLastOverlap det tolerance rem = some (i, gt) → rem[i]? = some gt := by
  intro rem
  induction rem with
  | nil => intro i gt h; simp [findLastOverlap] at h
  | cons g rest ih =>
    intro i gt h
    cases h' : findLastOverlap det tolerance rest with
    | some p =>
      obtain ⟨j, g'⟩ := p
      simp only [findLastOverlap, h'] at h
      injection h with h1
      injection h1 with ha hb
      subst ha
      subst hb
      rw [List.getElem?_cons_succ]
      exact ih j g' h'
    | none =>
      simp only [findLastOverlap, h'] at h
      by_cases hov : lines_overlap g.start_line g.end_line det.start_line
          det.end_line tolerance = true
      · rw [if_pos hov] at h
        injection h with h1
        injection h1 with ha hb
        subst ha
        subst hb
        simp
      · rw [if_neg hov] at h
        exact absurd h (by simp)

/-- Helper: in a pool with duplicate-free ids, the id of the element at a
popped index does not survive into the popped pool. -/
theorem id_not_mem_eraseIdx (rem : List GroundTruthError) (i : Nat)
    (gt : GroundTruthError) (hnd : (rem.map (·.id)).Nodup)
    (hget : rem[i]? = some gt) :
    gt.id ∉ (rem.eraseIdx i).map (·.id) := by
  intro hmem
  obtain ⟨g, hg, hgid⟩ := List.mem_map.mp hmem
  obtain ⟨j, hji, hj⟩ := List.mem_eraseIdx_iff_getElem?.mp hg
  have hmapj : (rem.map (·.id))[j]? = some gt.id := by
    rw [List.getElem?_map, hj]
    simp [hgid]
  have hmapi : (rem.map (·.id))[i]? = some gt.id := by
    rw [List.getElem?_map, hget]
    rfl
  have hjlt : j < (rem.map (·.id)).length := by
    rw [List.length_map]
    exact (List.getElem?_eq_some.mp hj).1
  exact hji (List.getElem?_inj hjlt hnd (hmapj.trans hmapi.symm))

/-- Helper for C2: along the v1 detection loop over a pool with
duplicate-free ids, the ids of the classic TP entries are pairwise
distinct and drawn from the pool. -/
theorem bothLoop_classic_tp_ids (tolerance : Int) :
    ∀ (ds : List DetectedError) (remO remS : List GroundTruthError),
      (remO.map (·.id)).Nodup →
      (((bothLoop tolerance remO remS ds).tp_old.map (·.gt_id)).Nodup ∧
       ∀ x ∈ (bothLoop tolerance remO remS ds).tp_old.map (·.gt_id),
         x ∈ remO.map (·.id)) := by
  intro ds
  induction ds with
  | nil => intro remO remS hnd; simp [bothLoop]
  | cons det ds ih =>
    intro remO remS hnd
    cases h : findLastOverlap det tolerance remO with
    | none => simpa [bothLoop, h] using ih remO remS hnd
    | some p =>
      obtain ⟨i, gt⟩ := p
      have hget := findLastOverlap_getElem? det tolerance remO i gt h
      have hsub : ((remO.eraseIdx i).map (·.id)).Nodup :=
        (((List.eraseIdx_sublist remO i).map (·.id)).nodup) hnd
      have hrec := ih (remO.eraseIdx i)
        (if strict_matchV1 gt det tolerance 0.30 = true then remS.eraseIdx i else remS) hsub
      have hgtmem : gt ∈ remO := by
        obtain ⟨hlt, heq⟩ := List.getElem?_eq_some.mp hget
        rw [← heq]
        exact List.getElem_mem hlt
      constructor
      · simp only [bothLoop, h, List.map_cons, List.nodup_cons, mkTPEntry]
        refine ⟨?_, hrec.1⟩
        intro hmem
        exact id_not_mem_eraseIdx remO i gt hnd hget (hrec.2 _ hmem)
      · simp only [bothLoop, h, List.map_cons, mkTPEntry]
        intro x hx
        rcases List.mem_cons.mp hx with rfl | hx
        · exact List.mem_map_of_mem _ hgtmem
        · exact (((List.eraseIdx_sublist remO i).map (·.id)).subset) (hrec.2 x hx)

/-- Helper for C2: the strict TP list of the v1 detection loop is a
sublist of the classic TP list. -/
theorem bothLoop_strict_sublist (tolerance : Int) :
    ∀ (ds : List DetectedError) (remO remS : List GroundTruthError),
      (bothLoop tolerance remO remS ds).tp_strict.Sublist
        (bothLoop tolerance remO remS ds).tp_old := by
  intro ds
  induction ds with
  | nil => intro remO remS; simp [bothLoop]
  | cons det ds ih =>
    intro remO remS
    cases h : findLastOverlap det tolerance remO with
    | none => simpa [bothLoop, h] using ih remO remS
    | some p =>
      obtain ⟨i, gt⟩ := p
      by_cases hs : strict_matchV1 gt det tolerance 0.30 = true
      · simp only [bothLoop, h, hs, if_true]
        exact List.Sublist.cons₂ _ (ih _ _)
      · simp only [bothLoop, h, hs, if_false, Bool.false_eq_true]
        exact (ih _ _).trans (List.sublist_cons_self _ _)

/-- Helper for C2: with globally duplicate-free ground-truth ids, both TP
lists of `match_errors_both` carry pairwise distinct ground-truth ids. -/
theorem match_errors_both_tp_ids_nodup (gt_errors : List GroundTruthError)
    (det_errors : List DetectedError) (tolerance : Int)
    (hids : (gt_errors.map (·.id)).Nodup) :
    ((match_errors_both gt_errors det_errors tolerance).tp_old.map (·.gt_id)).Nodup ∧
    ((match_errors_both gt_errors det_errors tolerance).tp_strict.map (·.gt_id)).Nodup := by
  have hfileN : ∀ f : String,
      ((gt_errors.filter (·.filename == f)).map (·.id)).Nodup :=
    fun f => ((gt_errors.filter_sublist.map (·.id)).nodup) hids
  have hfile := fun f => bothLoop_classic_tp_ids tolerance
    (sortByStart (det_errors.filter (·.filename == f)))
    (gt_errors.filter (·.filename == f)) (gt_errors.filter (·.filename == f))
    (hfileN f)
  have hdisj : ∀ f1 f2 : String, f1 ≠ f2 →
      ∀ x, x ∈ ((gt_errors.filter (·.filename == f1)).map (·.id)) →
        x ∈ ((gt_errors.filter (·.filename == f2)).map (·.id)) → False := by
    intro f1 f2 hne x hx1 hx2
    obtain ⟨g1, hg1, hgx1⟩ := List.mem_map.mp hx1
    obtain ⟨g2, hg2, hgx2⟩ := List.mem_map.mp hx2
    obtain ⟨hg1m, hg1f⟩ := List.mem_filter.mp hg1
    obtain ⟨hg2m, hg2f⟩ := List.mem_filter.mp hg2
    have hgeq : g1 = g2 :=
      List.inj_on_of_nodup_map hids hg1m hg2m (hgx1.trans hgx2.symm)
    apply hne
    have h1 : g1.filename = f1 := by simpa using hg1f
    have h2 : g2.filename = f2 := by simpa using hg2f
    rw [← h1, ← h2, hgeq]
  constructor
  · simp only [match_errors_both, List.map_flatMap, List.flatMap_map]
    rw [List.nodup_flatMap]
    constructor
    · intro f _
      exact ((hfile f).1)
    · apply List.Pairwise.imp_of_mem ?_ ((List.nodup_dedup _))
      intro f1 f2 _ _ hne
      simp only [Function.onFun, List.Disjoint]
      intro x hx1 hx2
      exact hdisj f1 f2 hne x ((hfile f1).2 x hx1) ((hfile f2).2 x hx2)
  · simp only [match_errors_both, List.map_flatMap, List.flatMap_map]
    rw [List.nodup_flatMap]
    constructor
    · intro f _
      exact ((bothLoop_strict_sublist tolerance _ _ _).map (·.gt_id)).nodup (hfile f).1
    · apply List.Pairwise.imp_of_mem ?_ ((List.nodup_dedup _))
      intro f1 f2 _ _ hne
      simp only [Function.onFun, List.Disjoint]
      intro x hx1 hx2
      have hs1 := ((bothLoop_strict_sublist tolerance _ _ _).map
        (fun e => e.gt_id)).subset hx1
      have hs2 := ((bothLoop_strict_sublist tolerance _ _ _).map
        (fun e => e.gt_id)).subset hx2
      exact hdisj f1 f2 hne x ((hfile f1).2 x hs1) ((hfile f2).2 x hs2)

/-- C2 (amended): no ground-truth id appears in more than one TP entry in
the v3 id-based detection (unconditionally), nor in the classic or strict
TP lists of v1 `match_errors_both` when the ground-truth ids are pairwise
distinct (the data model's uniqueness invariant); since every strategy
appends at most one TP entry per finding iteration and TP ids are
pairwise distinct, no finding accounts for two TP entries either.  The
exception is the v2 id-based detection, refuted separately. -/
theorem c2_at_most_one_match (gt_errors : List GroundTruthError)
    (det_errors : List DetectedError) (detid_errors : List DetectedErrorId)
    (tolerance : Int) (hids : (gt_errors.map (·.id)).Nodup) :
    ((evaluate_fault_detectionV3 gt_errors detid_errors).1.map (·.detected_id)).Nodup ∧
    ((match_errors_both gt_errors det_errors tolerance).tp_old.map (·.gt_id)).Nodup ∧
    ((match_errors_both gt_errors det_errors tolerance).tp_strict.map (·.gt_id)).Nodup :=
  ⟨(fdLoopV3_tp_ids_nodup gt_errors (detectionCount detid_errors) detid_errors []).1,
   (match_errors_both_tp_ids_nodup gt_errors det_errors tolerance hids).1,
   (match_errors_both_tp_ids_nodup gt_errors det_errors tolerance hids).2⟩

/-- C2 witness: the at-most-one-match invariant applied to the two-defect
input of the partition scenario and the duplicate-id detections. -/
theorem c2_at_most_one_match_witness :
    (([gtPartA, gtPartB].map (·.id)).Nodup) ∧
    ((evaluate_fault_detectionV3 [gtPartA, gtPartB] [detDupA, detDupB]).1.map
      (·.detected_id)).Nodup ∧
    ((match_errors_both [gtPartA, gtPartB] [detPartA, detPartB] 1).tp_old.map
      (·.gt_id)).Nodup ∧
    ((match_errors_both [gtPartA, gtPartB] [detPartA, detPartB] 1).tp_strict.map
      (·.gt_id)).Nodup :=
  ⟨by decide,
   (c2_at_most_one_match [gtPartA, gtPartB] [detPartA, detPartB] [detDupA, detDupB]
     1 (by decide)).1,
   (c2_at_most_one_match [gtPartA, gtPartB] [detPartA, detPartB] [detDupA, detDupB]
     1 (by decide)).2.1,
   (c2_at_most_one_match [gtPartA, gtPartB] [detPartA, detPartB] [detDupA, detDupB]
     1 (by decide)).2.2⟩
